import Mathlib

/-!
# A shallow embedding of the `ddb-cache-test` index handlers (`src/index.ts`)

The repository maintains two counter indexes ("tags" and "people"), each a
JavaScript object mapping string keys to integer counts, persisted as two
DynamoDB items.  This file embeds the index update and reconciliation logic:

* JavaScript objects are modelled as insertion-ordered association lists
  (`objGet` / `objSet` mirror property read and property assignment);
* the module-level mutable `defaultIndex` object is modelled by explicit
  state passing: `cleanZeroIndexes` receives the current contents of
  `defaultIndex`'s two maps and its result doubles as the new contents
  (the source builds its result by shallow-spreading `defaultIndex`, so the
  result's slot maps are the very same objects as `defaultIndex`'s);
* DynamoDB calls are modelled by an oracle `store : Nat → UpdateItemInput →
  Except AWSError UpdateItemOutput` (the `Nat` counts the calls issued so
  far), and each effectful function returns the list of requests it issued
  together with its outcome;
* the environment table name (`getIndexTableName`) and the clock
  (`new Date().getTime()`) are passed as parameters;
* DynamoDB update expressions are represented structurally: the source's
  placeholder strings `#0`, `#1`, …, `#indexKeysProp` (and `:0`, …,
  `:updatedAt`, `:zero`, `:emptyMap`) are modelled by the tagged types
  `NamePh` / `ValuePh` (the string forms are injective in the tag), and the
  expression text is the list of its clauses.
-/

/-- A counter map: a JavaScript object from string keys to integer counts,
as an insertion-ordered association list. -/
abbrev CounterMap := List (String × Int)

/-- A delta dictionary (`IIndexDictionary`): a JavaScript object whose
values may be `undefined` (`none`). -/
abbrev IIndexDictionary := List (String × Option Int)

/-- JavaScript property read `m[k]`: the value at the first matching key. -/
def objGet {κ α : Type} [DecidableEq κ] : List (κ × α) → κ → Option α
  | [], _ => none
  | (k₁, v) :: rest, k => if k₁ = k then some v else objGet rest k

/-- JavaScript property assignment `m[k] = v` (also the semantics of a
later key in an object spread): overwrite the binding in place if the key
is present, append it otherwise. -/
def objSet {κ α : Type} [DecidableEq κ] : List (κ × α) → κ → α → List (κ × α)
  | [], k, v => [(k, v)]
  | (k₁, v₁) :: rest, k, v =>
    if k₁ = k then (k, v) :: rest else (k₁, v₁) :: objSet rest k v

/-- The JavaScript value of `d[k]` for a dictionary with possibly-`undefined`
values: both an absent key and a key bound to `undefined` read as
`undefined` (`none`). -/
def jsGet (d : IIndexDictionary) (k : String) : Option Int :=
  (objGet d k).bind id

/-- `IIndex`: the in-memory pair of slot maps (source lines 23–26 give the
slots in the order `people`, `tags`). -/
structure IIndex where
  people : CounterMap
  tags : CounterMap
deriving DecidableEq, Repr

/-- `export const TAGS_ID = "tags"`. -/
def TAGS_ID : String := "tags"

/-- `export const PEOPLE_ID = "people"`. -/
def PEOPLE_ID : String := "people"

/-- `export const INDEX_KEYS_PROP = "indexKeys"`. -/
def INDEX_KEYS_PROP : String := "indexKeys"

/-- The module-level `defaultIndex` object as initialised at module load:
both slot maps empty.  `cleanZeroIndexes` mutates the two maps in place
(see `cleanZeroIndexes`), so the current contents are threaded explicitly
through the functions that read them. -/
def defaultIndex : IIndex := { people := [], tags := [] }

/-- A stored index record as returned by the batch read: `id` plus an
optional `indexKeys` counter map (absent on a freshly-created record). -/
structure IndexRecord where
  id : String
  indexKeys : Option CounterMap
deriving DecidableEq, Repr

/-- `parseIndexesObject`.  `ddbResponse` is `Responses[tableName]` when
`ddbResponse.Responses` is present (`none` models an absent `Responses`).
`defaultIdx` is the current contents of the module-level `defaultIndex`
maps; the source starts from the shallow copy `{...defaultIndex}`, whose
slot maps are `defaultIndex`'s own (possibly mutated) map objects, and a
slot keeps that map when its record is absent or its `indexKeys` is absent
(an empty object is truthy in JavaScript, so a present-but-empty
`indexKeys` is used as-is). -/
def parseIndexesObject (defaultIdx : IIndex) (ddbResponse : Option (List IndexRecord)) : IIndex :=
  match ddbResponse with
  | none => defaultIdx
  | some records =>
    let tagsRecord := records.find? (fun r => r.id == TAGS_ID)
    let tags : CounterMap :=
      match tagsRecord with
      | some r => match r.indexKeys with | some m => m | none => defaultIdx.tags
      | none => defaultIdx.tags
    let peopleRecord := records.find? (fun r => r.id == PEOPLE_ID)
    let people : CounterMap :=
      match peopleRecord with
      | some r => match r.indexKeys with | some m => m | none => defaultIdx.people
      | none => defaultIdx.people
    { people := people, tags := tags }

/-- One DynamoDB `PutRequest` item `{ id, indexKeys }` of the batch
write-back. -/
structure PutRequest where
  id : String
  indexKeys : CounterMap
deriving DecidableEq, Repr

/-- `updateCleanIndexes`: the batch write-back's `RequestItems` for the
index table — one wholesale `PutRequest` per slot, carrying a value copy
(`{...indexObject.tags}`) of that slot's full map. -/
def updateCleanIndexes (indexObject : IIndex) : List PutRequest :=
  [ { id := TAGS_ID, indexKeys := indexObject.tags },
    { id := PEOPLE_ID, indexKeys := indexObject.people } ]

/-- One slot's `Object.keys(src).forEach` loop of `cleanZeroIndexes`:
each key whose value is `≤ 0` only flips `updateNeeded`; every other key
is assigned into the accumulating map (which aliases a `defaultIndex`
slot).  Keys are read back through property lookup, as in the source.
(The `none` branch is unreachable for keys taken from `src` itself.) -/
def cleanSlot (src : CounterMap) : List String → CounterMap → Bool → CounterMap × Bool
  | [], acc, changed => (acc, changed)
  | p :: rest, acc, changed =>
    match objGet src p with
    | some v =>
      if v ≤ 0 then cleanSlot src rest acc true
      else cleanSlot src rest (objSet acc p v) changed
    | none => cleanSlot src rest acc changed

/-- `cleanZeroIndexes`, the pure part: from the current contents
`defaultIdx` of the module-level `defaultIndex` maps and the input
snapshot, the cleaned index and the `updateNeeded` flag.  The source's
`cleanedIndex` is the shallow copy `{...defaultIndex}`, so the loops write
into `defaultIdx`'s own maps: the returned index is simultaneously the
function result and the new contents of `defaultIndex`. -/
def cleanZeroIndexes (defaultIdx : IIndex) (indexObject : IIndex) : IIndex × Bool :=
  let peopleStep :=
    cleanSlot indexObject.people (indexObject.people.map Prod.fst) defaultIdx.people false
  let tagsStep :=
    cleanSlot indexObject.tags (indexObject.tags.map Prod.fst) defaultIdx.tags peopleStep.2
  ({ people := peopleStep.1, tags := tagsStep.1 }, tagsStep.2)

/-- The tail of `cleanZeroIndexes`: `updateNeeded ?
updateCleanIndexes(cleanedIndex).then(() => cleanedIndex) : cleanedIndex`
— the returned snapshot together with the batch write issued (if any). -/
def cleanZeroIndexesRun (defaultIdx : IIndex) (indexObject : IIndex) :
    IIndex × Option (List PutRequest) :=
  let step := cleanZeroIndexes defaultIdx indexObject
  if step.2 then (step.1, some (updateCleanIndexes step.1)) else (step.1, none)

-- Basic lemmas about the JavaScript object model.

theorem objGet_objSet_self {κ α : Type} [DecidableEq κ] (m : List (κ × α)) (k : κ) (v : α) :
    objGet (objSet m k v) k = some v := by
  induction m with
  | nil => simp [objGet, objSet]
  | cons hd tl ih =>
    obtain ⟨k₁, v₁⟩ := hd
    by_cases h : k₁ = k
    · simp [objGet, objSet, h]
    · simp [objGet, objSet, h, ih]

theorem objGet_objSet_ne {κ α : Type} [DecidableEq κ] (m : List (κ × α)) (k k₁ : κ) (v : α)
    (h : k₁ ≠ k) : objGet (objSet m k v) k₁ = objGet m k₁ := by
  induction m with
  | nil => simp [objGet, objSet, Ne.symm h]
  | cons hd tl ih =>
    obtain ⟨k₂, v₂⟩ := hd
    by_cases h₂ : k₂ = k
    · subst h₂
      simp [objGet, objSet, Ne.symm h, h]
    · by_cases h₃ : k₂ = k₁
      · subst h₃
        simp [objGet, objSet, h₂]
      · simp [objGet, objSet, h₂, h₃, ih]

theorem objGet_mem_keys {κ α : Type} [DecidableEq κ] (m : List (κ × α)) (k : κ) (v : α)
    (h : objGet m k = some v) : k ∈ m.map Prod.fst := by
  induction m with
  | nil => simp [objGet] at h
  | cons hd tl ih =>
    obtain ⟨k₁, v₁⟩ := hd
    by_cases h₁ : k₁ = k
    · simp [h₁]
    · simp only [objGet, if_neg h₁] at h
      simp [ih h]

theorem mem_keys_objGet {κ α : Type} [DecidableEq κ] (m : List (κ × α)) (k : κ)
    (h : k ∈ m.map Prod.fst) : ∃ v, objGet m k = some v := by
  induction m with
  | nil => simp at h
  | cons hd tl ih =>
    obtain ⟨k₁, v₁⟩ := hd
    by_cases h₁ : k₁ = k
    · exact ⟨v₁, by simp [objGet, h₁]⟩
    · simp only [List.map_cons, List.mem_cons] at h
      rcases h with h | h
      · exact absurd h.symm h₁
      · simpa [objGet, h₁] using ih h

-- Characterisation of one slot's cleaning loop.

/-- The value `cleanZeroIndexes` keeps for key `k` of a source map: the
stored value when it is positive, nothing otherwise. -/
def keptVal (src : CounterMap) (k : String) : Option Int :=
  match objGet src k with
  | some v => if 0 < v then some v else none
  | none => none

/-- Whether key `p` of `src` triggers the `updateNeeded` branch (its value
is `≤ 0`). -/
def isDroppedKey (src : CounterMap) (p : String) : Bool :=
  match objGet src p with
  | some v => decide (v ≤ 0)
  | none => false

/-- Some entry of `m` has a non-positive value (i.e. pruning drops it). -/
def hasDropped (m : CounterMap) : Prop :=
  ∃ k v, objGet m k = some v ∧ v ≤ 0

theorem cleanSlot_objGet (src : CounterMap) (keys : List String) (acc : CounterMap)
    (ch : Bool) (k : String) :
    objGet (cleanSlot src keys acc ch).1 k =
      if k ∈ keys then
        match keptVal src k with
        | some v => some v
        | none => objGet acc k
      else objGet acc k := by
  induction keys generalizing acc ch with
  | nil => simp [cleanSlot]
  | cons p rest ih =>
    by_cases hk : k = p
    · subst hk
      rcases hv : objGet src k with _ | v
      · simp only [cleanSlot, hv, ih, keptVal]
        by_cases hmem : k ∈ rest <;> simp [hmem]
      · by_cases hle : v ≤ 0
        · simp only [cleanSlot, hv, if_pos hle, ih, keptVal]
          have : ¬(0 : Int) < v := not_lt.mpr hle
          by_cases hmem : k ∈ rest <;> simp [hmem, this]
        · simp only [cleanSlot, hv, if_neg hle, ih, keptVal]
          have hpos : (0 : Int) < v := lt_of_not_le hle
          by_cases hmem : k ∈ rest <;>
            simp [hmem, hpos, hv, objGet_objSet_self]
    · rcases hv : objGet src p with _ | v
      · simp only [cleanSlot, hv, ih]
        simp [List.mem_cons, hk]
      · by_cases hle : v ≤ 0
        · simp only [cleanSlot, hv, if_pos hle, ih]
          simp [List.mem_cons, hk]
        · simp only [cleanSlot, hv, if_neg hle, ih]
          rw [objGet_objSet_ne _ _ _ _ hk]
          simp [List.mem_cons, hk]

theorem cleanSlot_snd (src : CounterMap) (keys : List String) (acc : CounterMap) (ch : Bool) :
    (cleanSlot src keys acc ch).2 = (ch || keys.any (isDroppedKey src)) := by
  induction keys generalizing acc ch with
  | nil => simp [cleanSlot]
  | cons p rest ih =>
    rcases hv : objGet src p with _ | v
    · simp [cleanSlot, hv, ih, isDroppedKey]
    · by_cases hle : v ≤ 0
      · simp only [cleanSlot, hv, if_pos hle, ih]
        have hd : isDroppedKey src p = true := by simp [isDroppedKey, hv, hle]
        simp [hd]
      · simp [cleanSlot, hv, if_neg hle, ih, isDroppedKey, hle]

theorem any_isDroppedKey_iff (src : CounterMap) :
    (src.map Prod.fst).any (isDroppedKey src) = true ↔ hasDropped src := by
  rw [List.any_eq_true]
  constructor
  · rintro ⟨p, hp, hdrop⟩
    rcases hv : objGet src p with _ | v
    · simp [isDroppedKey, hv] at hdrop
    · exact ⟨p, v, hv, by simpa [isDroppedKey, hv] using hdrop⟩
  · rintro ⟨k, v, hv, hle⟩
    exact ⟨k, objGet_mem_keys src k v hv, by simp [isDroppedKey, hv, hle]⟩

theorem cleanZeroIndexes_people_objGet (input : IIndex) (k : String) :
    objGet (cleanZeroIndexes defaultIndex input).1.people k = keptVal input.people k := by
  show objGet (cleanSlot input.people (input.people.map Prod.fst) [] false).1 k
      = keptVal input.people k
  rw [cleanSlot_objGet]
  rcases hv : keptVal input.people k with _ | v
  · simp [objGet]
  · have hmem : k ∈ input.people.map Prod.fst := by
      rcases hg : objGet input.people k with _ | w
      · simp [keptVal, hg] at hv
      · exact objGet_mem_keys _ _ _ hg
    simp [hmem]

theorem cleanZeroIndexes_tags_objGet (input : IIndex) (k : String) :
    objGet (cleanZeroIndexes defaultIndex input).1.tags k = keptVal input.tags k := by
  show objGet (cleanSlot input.tags (input.tags.map Prod.fst) []
      (cleanSlot input.people (input.people.map Prod.fst) [] false).2).1 k
      = keptVal input.tags k
  rw [cleanSlot_objGet]
  rcases hv : keptVal input.tags k with _ | v
  · simp [objGet]
  · have hmem : k ∈ input.tags.map Prod.fst := by
      rcases hg : objGet input.tags k with _ | w
      · simp [keptVal, hg] at hv
      · exact objGet_mem_keys _ _ _ hg
    simp [hmem]

theorem cleanZeroIndexes_snd_iff (defaultIdx : IIndex) (input : IIndex) :
    (cleanZeroIndexes defaultIdx input).2 = true ↔
      hasDropped input.people ∨ hasDropped input.tags := by
  show (cleanSlot input.tags (input.tags.map Prod.fst) defaultIdx.tags
      (cleanSlot input.people (input.people.map Prod.fst) defaultIdx.people false).2).2 = true ↔ _
  rw [cleanSlot_snd, cleanSlot_snd]
  simp only [Bool.false_or, Bool.or_eq_true]
  rw [any_isDroppedKey_iff, any_isDroppedKey_iff]

theorem keptVal_eq_some_iff (src : CounterMap) (k : String) (v : Int) :
    keptVal src k = some v ↔ objGet src k = some v ∧ 0 < v := by
  rcases hg : objGet src k with _ | w
  · simp [keptVal, hg]
  · by_cases hw : 0 < w
    · simp only [keptVal, hg, if_pos hw]
      constructor
      · rintro h; cases h; exact ⟨rfl, hw⟩
      · rintro ⟨h, _⟩; cases h; rfl
    · simp only [keptVal, hg, if_neg hw]
      constructor
      · rintro h; cases h
      · rintro ⟨h, hv⟩; cases h; exact absurd hv hw

/-- The slot decode as the specification words it: use the record's
counter mapping when the slot's record exists and carries a non-empty
mapping; substitute the empty mapping otherwise.  Compared against
`parseIndexesObject` in the decode claim. -/
def decodeSlotSpec (records : List IndexRecord) (slotId : String) : CounterMap :=
  match records.find? (fun r => r.id == slotId) with
  | some r =>
    match r.indexKeys with
    | some m => if m.isEmpty then [] else m
    | none => []
  | none => []

theorem parseIndexesObject_eq_decodeSlotSpec (records : List IndexRecord) :
    (parseIndexesObject defaultIndex (some records)).people = decodeSlotSpec records PEOPLE_ID ∧
    (parseIndexesObject defaultIndex (some records)).tags = decodeSlotSpec records TAGS_ID := by
  have hp : (parseIndexesObject defaultIndex (some records)).people =
      (match records.find? (fun r => r.id == PEOPLE_ID) with
        | some r => match r.indexKeys with | some m => m | none => defaultIndex.people
        | none => defaultIndex.people) := rfl
  have ht : (parseIndexesObject defaultIndex (some records)).tags =
      (match records.find? (fun r => r.id == TAGS_ID) with
        | some r => match r.indexKeys with | some m => m | none => defaultIndex.tags
        | none => defaultIndex.tags) := rfl
  constructor
  · rw [hp]
    rcases hf : records.find? (fun r => r.id == PEOPLE_ID) with _ | r
    · simp [decodeSlotSpec, hf, defaultIndex]
    · rcases hk : r.indexKeys with _ | m
      · simp [decodeSlotSpec, hf, hk, defaultIndex]
      · rcases m with _ | ⟨hd, tl⟩ <;> simp [decodeSlotSpec, hf, hk]
  · rw [ht]
    rcases hf : records.find? (fun r => r.id == TAGS_ID) with _ | r
    · simp [decodeSlotSpec, hf, defaultIndex]
    · rcases hk : r.indexKeys with _ | m
      · simp [decodeSlotSpec, hf, hk, defaultIndex]
      · rcases m with _ | ⟨hd, tl⟩ <;> simp [decodeSlotSpec, hf, hk]

/-- **C2.** For every `IndexSet` input (pruned with the module-level
`defaultIndex` in its initial, empty state), `cleanZeroIndexes` retains in
each slot exactly the entries whose value is `> 0` — an entry is dropped
iff its value is `≤ 0`, kept unchanged otherwise, slots processed
independently — and the `updateNeeded` flag is `true` iff at least one
entry was dropped in either slot. -/
theorem claim2_prune_retains_positive (input : IIndex) :
    (∀ k v, objGet (cleanZeroIndexes defaultIndex input).1.people k = some v ↔
      objGet input.people k = some v ∧ 0 < v) ∧
    (∀ k v, objGet (cleanZeroIndexes defaultIndex input).1.tags k = some v ↔
      objGet input.tags k = some v ∧ 0 < v) ∧
    ((cleanZeroIndexes defaultIndex input).2 = true ↔
      hasDropped input.people ∨ hasDropped input.tags) := by
  refine ⟨?_, ?_, cleanZeroIndexes_snd_iff defaultIndex input⟩
  · intro k v
    rw [cleanZeroIndexes_people_objGet, keptVal_eq_some_iff]
  · intro k v
    rw [cleanZeroIndexes_tags_objGet, keptVal_eq_some_iff]

/-- **C3.** `cleanZeroIndexes`'s tail: when no entry was dropped the
cleaned snapshot is returned with no batch write; when at least one entry
was dropped, the full pruned snapshot of both slots is persisted as one
`PutRequest` per slot (each carrying that slot's complete pruned map) and
the cleaned snapshot is returned. -/
theorem claim3_reconcile_writeback (input : IIndex) :
    (cleanZeroIndexesRun defaultIndex input).1 = (cleanZeroIndexes defaultIndex input).1 ∧
    ((cleanZeroIndexesRun defaultIndex input).2 = none ↔
      ¬(hasDropped input.people ∨ hasDropped input.tags)) ∧
    ((cleanZeroIndexesRun defaultIndex input).2 =
        some [ { id := TAGS_ID, indexKeys := (cleanZeroIndexes defaultIndex input).1.tags },
               { id := PEOPLE_ID,
                 indexKeys := (cleanZeroIndexes defaultIndex input).1.people } ] ↔
      hasDropped input.people ∨ hasDropped input.tags) := by
  have hiff := cleanZeroIndexes_snd_iff defaultIndex input
  unfold cleanZeroIndexesRun
  cases h : (cleanZeroIndexes defaultIndex input).2 with
  | false =>
    rw [h] at hiff
    simp only [h, Bool.false_eq_true, if_false]
    refine ⟨trivial, by simp [← hiff], by simp [← hiff]⟩
  | true =>
    rw [h] at hiff
    simp only [h, if_true]
    refine ⟨trivial, by simp [← hiff], by simp [updateCleanIndexes, ← hiff]⟩

/-- **C5.** Decoding a batch-read result with the pristine `defaultIndex`:
each slot gets the counter mapping carried by that slot's record when the
record exists and carries a non-empty mapping, and the empty mapping
otherwise (`decodeSlotSpec` states the specification's wording); the decode
is a total function — an absent `Responses` or an absent record is not an
error — and the concrete example `{no people record; tags record with
{red: 2}}` decodes to `{people: {}, tags: {red: 2}}`. -/
theorem claim5_decode_total (records : List IndexRecord) :
    (parseIndexesObject defaultIndex (some records)).people = decodeSlotSpec records PEOPLE_ID ∧
    (parseIndexesObject defaultIndex (some records)).tags = decodeSlotSpec records TAGS_ID ∧
    parseIndexesObject defaultIndex none = { people := [], tags := [] } ∧
    parseIndexesObject defaultIndex
        (some [{ id := TAGS_ID, indexKeys := some [("red", 2)] }]) =
      { people := [], tags := [("red", 2)] } :=
  ⟨(parseIndexesObject_eq_decodeSlotSpec records).1,
    (parseIndexesObject_eq_decodeSlotSpec records).2, rfl, by decide⟩

/-- **C9.** `cleanZeroIndexes` writes into the module-level
`defaultIndex`'s own maps (its result is the new contents of those maps,
since `{...defaultIndex}` is a shallow copy): after a call that retained
`bob ↦ 1`, a later call on an entirely empty input returns a cleaned map
still containing `bob ↦ 1` (the pure positive-entries result would be
empty), and `parseIndexesObject` with no records likewise returns the
polluted map. -/
theorem claim9_defaultIndex_pollution :
    (cleanZeroIndexes defaultIndex { people := [("bob", 1)], tags := [] }).1
        = { people := [("bob", 1)], tags := [] } ∧
    (cleanZeroIndexes { people := [("bob", 1)], tags := [] }
        { people := [], tags := [] }).1.people = [("bob", 1)] ∧
    (parseIndexesObject { people := [("bob", 1)], tags := [] } none).people
        = [("bob", 1)] := by
  refine ⟨?_, rfl, rfl⟩
  decide

-- The counter update engine: building and submitting update requests.

/-- An expression attribute *name* placeholder: `NamePh.num i` models the
source's `#i` (e.g. `#0`, `#1`, …) and `NamePh.indexKeysProp` models
`#indexKeysProp`.  The string forms are injective in the tag. -/
inductive NamePh where
  | num (i : Nat)
  | indexKeysProp
deriving DecidableEq, Repr

/-- An expression attribute *value* placeholder: `ValuePh.num i` models
`:i`, and the other constructors model `:updatedAt`, `:zero` and
`:emptyMap`. -/
inductive ValuePh where
  | num (i : Nat)
  | updatedAt
  | zero
  | emptyMap
deriving DecidableEq, Repr

/-- A DynamoDB attribute value as used by these requests: a number or a
map. -/
inductive AttrVal where
  | n (v : Int)
  | m (map : CounterMap)
deriving DecidableEq, Repr

/-- One clause of an `UpdateExpression`:
`incKey nph vph` models `#indexKeysProp.<nph> =
if_not_exists(#indexKeysProp.<nph>, :zero) + <vph>`;
`setUpdatedAt vph` models `updatedAt = <vph>`;
`setAttr nph vph` models `<nph> = <vph>` (the bootstrap's
`SET #indexKeysProp = :emptyMap`). -/
inductive UpdateClause where
  | incKey (nph : NamePh) (vph : ValuePh)
  | setUpdatedAt (vph : ValuePh)
  | setAttr (nph : NamePh) (vph : ValuePh)
deriving DecidableEq, Repr

/-- A `ConditionExpression`: `attrNotExists nph` models
`attribute_not_exists(<nph>)`. -/
inductive CondExpr where
  | attrNotExists (nph : NamePh)
deriving DecidableEq, Repr

/-- A `DocClient.UpdateItemInput`, with the expression strings represented
structurally (`Key: { id }` is the `id` field). -/
structure UpdateItemInput where
  ExpressionAttributeNames : List (NamePh × String)
  ExpressionAttributeValues : List (ValuePh × AttrVal)
  ConditionExpression : Option CondExpr := none
  id : String
  ReturnValues : Option String := none
  TableName : String
  UpdateExpression : List UpdateClause
deriving DecidableEq, Repr

/-- `Object.keys(indexData).filter((k) => indexData[k] !== undefined)`. -/
def validKeys (indexData : IIndexDictionary) : List String :=
  (indexData.map Prod.fst).filter (fun k => (jsGet indexData k).isSome)

/-- The `ExpressionAttributeNames` reduce callback: on entry `(idx, key)`
the spread `{...accum, [`#idx`]: key, [`#indexKeysProp`]: INDEX_KEYS_PROP}`. -/
def namesReduceStep (accum : List (NamePh × String)) (p : Nat × String) :
    List (NamePh × String) :=
  objSet (objSet accum (NamePh.num p.1) p.2) NamePh.indexKeysProp INDEX_KEYS_PROP

/-- The `ExpressionAttributeValues` reduce callback: on entry `(idx, key)`
the spread `{...accum, [`:idx`]: indexData[key]}` (for a valid key the
looked-up value is present). -/
def valuesReduceStep (indexData : IIndexDictionary) (accum : List (ValuePh × AttrVal))
    (p : Nat × String) : List (ValuePh × AttrVal) :=
  objSet accum (ValuePh.num p.1) (AttrVal.n ((jsGet indexData p.2).getD 0))

/-- `getDynamoDbUpdateItemParams`: `null` (`none`) when no valid keys
remain; otherwise the placeholder maps built by the source's `reduce`
calls (object spread = `objSet`, the key/value placeholder of entry `idx`
indexed by `idx`, the values seeded with `:updatedAt` and `:zero`) and the
update expression `SET <one incKey clause per valid key>, updatedAt =
:updatedAt`.  The environment's table name and `new Date().getTime()` are
parameters. -/
def getDynamoDbUpdateItemParams (tableName : String) (timestamp : Int)
    (indexId : String) (indexData : IIndexDictionary) : Option UpdateItemInput :=
  let vks := validKeys indexData
  if vks.length > 0 then
    some {
      ExpressionAttributeNames := vks.enum.foldl namesReduceStep [],
      ExpressionAttributeValues := vks.enum.foldl (valuesReduceStep indexData)
        [(ValuePh.updatedAt, AttrVal.n timestamp), (ValuePh.zero, AttrVal.n 0)],
      id := indexId,
      ReturnValues := some "ALL_NEW",
      TableName := tableName,
      UpdateExpression :=
        vks.enum.map (fun p => UpdateClause.incKey (NamePh.num p.1) (ValuePh.num p.1))
          ++ [UpdateClause.setUpdatedAt ValuePh.updatedAt] }
  else none

/-- The error shape of a rejected `aws-sdk` call: `code` and `message`. -/
structure AWSError where
  code : String
  message : String
deriving DecidableEq, Repr

/-- A stored index item as an update sees it: the optional `indexKeys`
mapping and the optional `updatedAt` timestamp. -/
structure StoredItem where
  indexKeys : Option CounterMap
  updatedAt : Option Int
deriving DecidableEq, Repr

/-- A `DocClient.UpdateItemOutput` (the `Attributes` echo). -/
structure UpdateItemOutput where
  Attributes : Option StoredItem := none
deriving DecidableEq, Repr

/-- The `setMapParams` request built inside `updateAndHandleEmptyMap`:
a conditional write `SET #indexKeysProp = :emptyMap` guarded by
`attribute_not_exists(#indexKeysProp)`, against the same key and table as
the failed update. -/
def mkSetMapParams (ddbParams : UpdateItemInput) : UpdateItemInput :=
  { ExpressionAttributeNames := [(NamePh.indexKeysProp, INDEX_KEYS_PROP)],
    ExpressionAttributeValues := [(ValuePh.emptyMap, AttrVal.m [])],
    ConditionExpression := some (CondExpr.attrNotExists NamePh.indexKeysProp),
    id := ddbParams.id,
    TableName := ddbParams.TableName,
    UpdateExpression := [UpdateClause.setAttr NamePh.indexKeysProp ValuePh.emptyMap] }

/-- `updateAndHandleEmptyMap`.  The storage gateway is the oracle `store`
(`store i p` is the outcome of the `i`-th `dynamodb.update` call of this
invocation, with parameters `p`); the result is the list of requests
submitted plus the final outcome.  The promise chain
`update(setMapParams).then(() => update(ddbParams))` has no rejection
handler, so a failing conditional write propagates its own error and the
original request is *not* retried. -/
def updateAndHandleEmptyMap (store : Nat → UpdateItemInput → Except AWSError UpdateItemOutput)
    (ddbParams : UpdateItemInput) :
    List UpdateItemInput × Except AWSError UpdateItemOutput :=
  match store 0 ddbParams with
  | .ok out => ([ddbParams], .ok out)
  | .error e =>
    if e.code == "ValidationException" &&
        e.message == "The document path provided in the update expression is invalid for update" then
      let setMapParams := mkSetMapParams ddbParams
      match store 1 setMapParams with
      | .ok _ => ([ddbParams, setMapParams, ddbParams], store 2 ddbParams)
      | .error e₂ => ([ddbParams, setMapParams], .error e₂)
    else ([ddbParams], .error e)

/-- `updateIndexRecord`: build the params; `undefined` (`none`, the
skipped marker) without touching the store when they are `null`, otherwise
submit through `updateAndHandleEmptyMap`. -/
def updateIndexRecord (store : Nat → UpdateItemInput → Except AWSError UpdateItemOutput)
    (tableName : String) (timestamp : Int) (indexId : String) (indexData : IIndexDictionary) :
    List UpdateItemInput × Option (Except AWSError UpdateItemOutput) :=
  match getDynamoDbUpdateItemParams tableName timestamp indexId indexData with
  | some ddbParams =>
    let r := updateAndHandleEmptyMap store ddbParams
    (r.1, some r.2)
  | none => ([], none)

/-- A thrown JavaScript value as caught by `putItem`'s `try`/`catch`:
either the `TypeError` raised by `Object.keys(undefined)` when a slot's
delta mapping is omitted from the request, or a rejected storage call. -/
inductive JsError where
  | typeError
  | aws (e : AWSError)
deriving DecidableEq, Repr

/-- The runtime behaviour of `updateIndexRecord` when the caller may pass
`undefined` for `indexData` (as `putItem` does for an omitted slot):
`Object.keys(undefined)` throws a `TypeError`; a rejected submission
becomes a thrown `JsError.aws`; `undefined` (skipped) becomes `.ok none`. -/
def updateIndexRecordRun (store : Nat → UpdateItemInput → Except AWSError UpdateItemOutput)
    (tableName : String) (timestamp : Int) (indexId : String)
    (indexData : Option IIndexDictionary) :
    List UpdateItemInput × Except JsError (Option UpdateItemOutput) :=
  match indexData with
  | none => ([], .error JsError.typeError)
  | some d =>
    match updateIndexRecord store tableName timestamp indexId d with
    | (tr, none) => (tr, .ok none)
    | (tr, some (.ok out)) => (tr, .ok (some out))
    | (tr, some (.error e)) => (tr, .error (JsError.aws e))

/-- `IIndexUpdate`: the request body's optional per-slot delta mappings. -/
structure IIndexUpdate where
  tags : Option IIndexDictionary
  people : Option IIndexDictionary

/-- `IPutIndexRequest`: the parsed write request body. -/
structure IPutIndexRequest where
  indexUpdate : IIndexUpdate

/-- `putItem`: update the tags slot then the people slot sequentially;
a throw from either is caught and becomes the failure envelope
(`.error`), otherwise the success envelope carries both per-slot results
(`none` = the skipped marker). -/
def putItem (storeTags storePeople : Nat → UpdateItemInput → Except AWSError UpdateItemOutput)
    (tableName : String) (timestamp : Int) (requestBody : IPutIndexRequest) :
    Except JsError (Option UpdateItemOutput × Option UpdateItemOutput) :=
  match updateIndexRecordRun storeTags tableName timestamp TAGS_ID
      requestBody.indexUpdate.tags with
  | (_, .error e) => .error e
  | (_, .ok tagsUpdateResponse) =>
    match updateIndexRecordRun storePeople tableName timestamp PEOPLE_ID
        requestBody.indexUpdate.people with
    | (_, .error e) => .error e
    | (_, .ok peopleUpdateResponse) => .ok (tagsUpdateResponse, peopleUpdateResponse)

-- Evaluation of an update request against a stored item (the storage
-- gateway's increment-or-initialize semantics: `if_not_exists` reads the
-- item's prior state, a nested path under an absent `indexKeys` mapping
-- is invalid).

/-- Evaluate one clause: placeholders are resolved through the request's
attribute name/value maps (`none` = unresolvable placeholder or invalid
document path).  `old` is the item state before the whole update (the
state `if_not_exists` reads), `cur` the state accumulated so far. -/
def evalClause (names : List (NamePh × String)) (values : List (ValuePh × AttrVal))
    (old cur : StoredItem) : UpdateClause → Option StoredItem
  | .incKey nph vph =>
    match objGet names NamePh.indexKeysProp, objGet names nph,
        objGet values vph, objGet values ValuePh.zero with
    | some prop, some key, some (AttrVal.n delta), some (AttrVal.n z) =>
      if prop = INDEX_KEYS_PROP then
        match old.indexKeys, cur.indexKeys with
        | some oldMap, some curMap =>
          let incremented := (objGet oldMap key).getD z + delta
          some { cur with indexKeys := some (objSet curMap key incremented) }
        | _, _ => none
      else none
    | _, _, _, _ => none
  | .setUpdatedAt vph =>
    match objGet values vph with
    | some (AttrVal.n ts) => some { cur with updatedAt := some ts }
    | _ => none
  | .setAttr nph vph =>
    match objGet names nph, objGet values vph with
    | some prop, some (AttrVal.m m) =>
      if prop = INDEX_KEYS_PROP then some { cur with indexKeys := some m } else none
    | _, _ => none

/-- Evaluate a clause list left to right. -/
def evalClauses (names : List (NamePh × String)) (values : List (ValuePh × AttrVal))
    (old : StoredItem) : List UpdateClause → StoredItem → Option StoredItem
  | [], cur => some cur
  | c :: cs, cur =>
    match evalClause names values old cur c with
    | some next => evalClauses names values old cs next
    | none => none

/-- Evaluate a whole update request against a stored item. -/
def evalUpdate (req : UpdateItemInput) (item : StoredItem) : Option StoredItem :=
  evalClauses req.ExpressionAttributeNames req.ExpressionAttributeValues item
    req.UpdateExpression item

theorem evalClauses_append (names : List (NamePh × String)) (values : List (ValuePh × AttrVal))
    (old : StoredItem) (xs ys : List UpdateClause) (cur : StoredItem) :
    evalClauses names values old (xs ++ ys) cur =
      match evalClauses names values old xs cur with
      | some mid => evalClauses names values old ys mid
      | none => none := by
  induction xs generalizing cur with
  | nil => simp [evalClauses]
  | cons c cs ih =>
    simp only [List.cons_append, evalClauses]
    rcases evalClause names values old cur c with _ | next
    · rfl
    · exact ih next

-- Lookup lemmas for the reduce-built placeholder maps.

theorem objGet_namesFold_not_mem (l : List (Nat × String)) (j : Nat) :
    ∀ accum, j ∉ l.map Prod.fst →
      objGet (l.foldl namesReduceStep accum) (NamePh.num j) = objGet accum (NamePh.num j) := by
  induction l with
  | nil => intro accum _; rfl
  | cons p ps ih =>
    intro accum hj
    simp only [List.map_cons, List.mem_cons, not_or] at hj
    rw [List.foldl_cons, ih _ hj.2]
    unfold namesReduceStep
    rw [objGet_objSet_ne _ _ _ _ (by simp), objGet_objSet_ne _ _ _ _ (by simp [hj.1])]

theorem objGet_namesFold_mem (l : List (Nat × String)) (p : Nat × String) :
    ∀ accum, p ∈ l → (l.map Prod.fst).Nodup →
      objGet (l.foldl namesReduceStep accum) (NamePh.num p.1) = some p.2 := by
  induction l with
  | nil => intro accum hmem _; cases hmem
  | cons q qs ih =>
    intro accum hmem hnd
    simp only [List.map_cons, List.nodup_cons] at hnd
    rw [List.foldl_cons]
    rcases List.mem_cons.mp hmem with h | h
    · subst h
      rw [objGet_namesFold_not_mem qs p.1 _ hnd.1]
      unfold namesReduceStep
      rw [objGet_objSet_ne _ _ _ _ (by simp), objGet_objSet_self]
    · exact ih _ h hnd.2

theorem objGet_namesFold_keep_prop (l : List (Nat × String)) :
    ∀ accum, objGet accum NamePh.indexKeysProp = some INDEX_KEYS_PROP →
      objGet (l.foldl namesReduceStep accum) NamePh.indexKeysProp = some INDEX_KEYS_PROP := by
  induction l with
  | nil => intro accum h; exact h
  | cons q qs ih =>
    intro accum _
    rw [List.foldl_cons]
    exact ih _ (by unfold namesReduceStep; rw [objGet_objSet_self])

theorem objGet_namesFold_prop (l : List (Nat × String)) (hne : l ≠ []) (accum : List (NamePh × String)) :
    objGet (l.foldl namesReduceStep accum) NamePh.indexKeysProp = some INDEX_KEYS_PROP := by
  cases l with
  | nil => exact absurd rfl hne
  | cons q qs =>
    rw [List.foldl_cons]
    exact objGet_namesFold_keep_prop qs _ (by unfold namesReduceStep; rw [objGet_objSet_self])

theorem objGet_valuesFold_not_num (d : IIndexDictionary) (l : List (Nat × String))
    (q : ValuePh) (hq : ∀ i, q ≠ ValuePh.num i) :
    ∀ accum, objGet (l.foldl (valuesReduceStep d) accum) q = objGet accum q := by
  induction l with
  | nil => intro accum; rfl
  | cons p ps ih =>
    intro accum
    rw [List.foldl_cons, ih]
    unfold valuesReduceStep
    rw [objGet_objSet_ne _ _ _ _ (hq p.1)]

theorem objGet_valuesFold_not_mem (d : IIndexDictionary) (l : List (Nat × String)) (j : Nat) :
    ∀ accum, j ∉ l.map Prod.fst →
      objGet (l.foldl (valuesReduceStep d) accum) (ValuePh.num j) =
        objGet accum (ValuePh.num j) := by
  induction l with
  | nil => intro accum _; rfl
  | cons p ps ih =>
    intro accum hj
    simp only [List.map_cons, List.mem_cons, not_or] at hj
    rw [List.foldl_cons, ih _ hj.2]
    unfold valuesReduceStep
    rw [objGet_objSet_ne _ _ _ _ (by simp [hj.1])]

theorem objGet_valuesFold_mem (d : IIndexDictionary) (l : List (Nat × String))
    (p : Nat × String) :
    ∀ accum, p ∈ l → (l.map Prod.fst).Nodup →
      objGet (l.foldl (valuesReduceStep d) accum) (ValuePh.num p.1) =
        some (AttrVal.n ((jsGet d p.2).getD 0)) := by
  induction l with
  | nil => intro accum hmem _; cases hmem
  | cons q qs ih =>
    intro accum hmem hnd
    simp only [List.map_cons, List.nodup_cons] at hnd
    rw [List.foldl_cons]
    rcases List.mem_cons.mp hmem with h | h
    · subst h
      rw [objGet_valuesFold_not_mem d qs p.1 _ hnd.1]
      unfold valuesReduceStep
      rw [objGet_objSet_self]
    · exact ih _ h hnd.2

/-- Evaluating the generated increment clauses: each clause adds its delta
to the `if_not_exists` read of the *prior* map, so the accumulated map is
characterised pointwise by membership in the processed keys. -/
theorem evalClauses_incKeys (names : List (NamePh × String)) (values : List (ValuePh × AttrVal))
    (oldMap : CounterMap) (u₀ : Option Int) (z : Int) (delta : String → Int)
    (hprop : objGet names NamePh.indexKeysProp = some INDEX_KEYS_PROP)
    (hzero : objGet values ValuePh.zero = some (AttrVal.n z)) :
    ∀ (pairs : List (Nat × String)) (curMap : CounterMap) (u : Option Int),
      (∀ p ∈ pairs, objGet names (NamePh.num p.1) = some p.2) →
      (∀ p ∈ pairs, objGet values (ValuePh.num p.1) = some (AttrVal.n (delta p.2))) →
      ∃ M, evalClauses names values { indexKeys := some oldMap, updatedAt := u₀ }
          (pairs.map fun p => UpdateClause.incKey (NamePh.num p.1) (ValuePh.num p.1))
          { indexKeys := some curMap, updatedAt := u }
        = some { indexKeys := some M, updatedAt := u } ∧
        ∀ k, objGet M k =
          if k ∈ pairs.map Prod.snd then some ((objGet oldMap k).getD z + delta k)
          else objGet curMap k := by
  intro pairs
  induction pairs with
  | nil =>
    intro curMap u _ _
    exact ⟨curMap, rfl, by simp⟩
  | cons p ps ih =>
    intro curMap u hn hv
    have hn0 := hn p (List.mem_cons_self p ps)
    have hv0 := hv p (List.mem_cons_self p ps)
    obtain ⟨M, hM, hchar⟩ :=
      ih (objSet curMap p.2 ((objGet oldMap p.2).getD z + delta p.2)) u
        (fun q hq => hn q (List.mem_cons_of_mem p hq))
        (fun q hq => hv q (List.mem_cons_of_mem p hq))
    refine ⟨M, ?_, ?_⟩
    · simp only [List.map_cons, evalClauses, evalClause, hprop, hn0, hv0, hzero, if_pos rfl]
      exact hM
    · intro k
      rw [hchar k]
      by_cases hks : k ∈ ps.map Prod.snd
      · simp [hks]
      · by_cases hkp : k = p.2
        · subst hkp
          simp [hks, objGet_objSet_self]
        · rw [objGet_objSet_ne _ _ _ _ hkp]
          simp [hks, hkp]

theorem mem_validKeys_iff (indexData : IIndexDictionary) (k : String) :
    k ∈ validKeys indexData ↔ (jsGet indexData k).isSome = true := by
  unfold validKeys
  rw [List.mem_filter]
  constructor
  · rintro ⟨_, h⟩
    exact h
  · intro h
    refine ⟨?_, h⟩
    rcases hg : objGet indexData k with _ | ov
    · simp [jsGet, hg] at h
    · exact objGet_mem_keys _ _ _ hg

/-- Building and evaluating an increment request: for a delta dictionary
with at least one valid key, `getDynamoDbUpdateItemParams` produces a
request whose evaluation against any prior item with an `indexKeys`
mapping succeeds, adds each valid key's delta to the prior value (`0` when
absent), leaves every other key untouched, and sets `updatedAt`. -/
theorem getParams_eval (tableName : String) (ts : Int) (indexId : String)
    (indexData : IIndexDictionary) (hne : validKeys indexData ≠ [])
    (oldMap : CounterMap) (u₀ : Option Int) :
    ∃ req, getDynamoDbUpdateItemParams tableName ts indexId indexData = some req ∧
      ∃ M, evalUpdate req { indexKeys := some oldMap, updatedAt := u₀ }
          = some { indexKeys := some M, updatedAt := some ts } ∧
        ∀ k, objGet M k =
          if k ∈ validKeys indexData
          then some ((objGet oldMap k).getD 0 + (jsGet indexData k).getD 0)
          else objGet oldMap k := by
  have hlen : (validKeys indexData).length > 0 := List.length_pos.mpr hne
  set vks := validKeys indexData with hvks
  set names := vks.enum.foldl namesReduceStep [] with hnames
  set values := vks.enum.foldl (valuesReduceStep indexData)
    [(ValuePh.updatedAt, AttrVal.n ts), (ValuePh.zero, AttrVal.n 0)] with hvalues
  refine ⟨⟨names, values, none, indexId, some "ALL_NEW", tableName,
    vks.enum.map (fun p => UpdateClause.incKey (NamePh.num p.1) (ValuePh.num p.1))
      ++ [UpdateClause.setUpdatedAt ValuePh.updatedAt]⟩, ?_, ?_⟩
  · simp only [getDynamoDbUpdateItemParams]
    rw [if_pos hlen]
  · have henum_ne : vks.enum ≠ [] := fun h =>
      hne (List.enumFrom_eq_nil.mp (by rwa [List.enum_eq_enumFrom] at h))
    have hprop : objGet names NamePh.indexKeysProp = some INDEX_KEYS_PROP :=
      objGet_namesFold_prop _ henum_ne _
    have hzero : objGet values ValuePh.zero = some (AttrVal.n 0) := by
      rw [hvalues, objGet_valuesFold_not_num indexData vks.enum ValuePh.zero
        (fun i => by simp)]
      rfl
    have hupd : objGet values ValuePh.updatedAt = some (AttrVal.n ts) := by
      rw [hvalues, objGet_valuesFold_not_num indexData vks.enum ValuePh.updatedAt
        (fun i => by simp)]
      rfl
    have hnodup : (vks.enum.map Prod.fst).Nodup := List.nodup_enum_map_fst vks
    obtain ⟨M, hM, hchar⟩ := evalClauses_incKeys names values oldMap u₀ 0
      (fun k => (jsGet indexData k).getD 0) hprop hzero vks.enum oldMap u₀
      (fun p hp => objGet_namesFold_mem vks.enum p _ hp hnodup)
      (fun p hp => objGet_valuesFold_mem indexData vks.enum p _ hp hnodup)
    refine ⟨M, ?_, ?_⟩
    · show evalClauses names values _ (_ ++ _) _ = _
      rw [evalClauses_append, hM]
      simp only [evalClauses, evalClause, hupd]
    · intro k
      rw [hchar k]
      simp only [List.enum_eq_enumFrom, List.enumFrom_map_snd]

/-- **C4.** For every slot identifier and delta dictionary with at least
one valid (non-`undefined`) entry, `getDynamoDbUpdateItemParams` produces
a request whose evaluation against any prior item carrying a counter map
sets `indexKeys[k]` to (the prior value, else `0`) plus the delta for
every valid key `k`, leaves all other keys unchanged, and sets
`updatedAt` to the timestamp. -/
theorem claim4_increment_request (tableName : String) (ts : Int) (indexId : String)
    (indexData : IIndexDictionary) (hne : validKeys indexData ≠ [])
    (oldMap : CounterMap) (u₀ : Option Int) :
    ∃ req, getDynamoDbUpdateItemParams tableName ts indexId indexData = some req ∧
      ∃ M, evalUpdate req { indexKeys := some oldMap, updatedAt := u₀ }
          = some { indexKeys := some M, updatedAt := some ts } ∧
        (∀ k d, jsGet indexData k = some d →
          objGet M k = some ((objGet oldMap k).getD 0 + d)) ∧
        (∀ k, jsGet indexData k = none → objGet M k = objGet oldMap k) := by
  obtain ⟨req, hreq, M, hM, hchar⟩ :=
    getParams_eval tableName ts indexId indexData hne oldMap u₀
  refine ⟨req, hreq, M, hM, ?_, ?_⟩
  · intro k d hd
    rw [hchar k, if_pos ((mem_validKeys_iff _ _).mpr (by simp [hd]))]
    simp [hd]
  · intro k hd
    have hnmem : k ∉ validKeys indexData := fun hmem => by
      have hs := (mem_validKeys_iff indexData k).mp hmem
      rw [hd] at hs
      simp at hs
    rw [hchar k, if_neg hnmem]

/-- Witness for C4 at the specification's example: deltas
`{a: 3, b: -1}` against prior state `{a: 5}` (no `b`). -/
theorem claim4_increment_request_witness :
    validKeys [("a", some 3), ("b", some (-1))] ≠ [] ∧
    (∃ req, getDynamoDbUpdateItemParams "indexes" 7 TAGS_ID
        [("a", some 3), ("b", some (-1))] = some req ∧
      ∃ M, evalUpdate req { indexKeys := some [("a", 5)], updatedAt := none }
          = some { indexKeys := some M, updatedAt := some 7 } ∧
        (∀ k d, jsGet [("a", some 3), ("b", some (-1))] k = some d →
          objGet M k = some ((objGet [("a", 5)] k).getD 0 + d)) ∧
        (∀ k, jsGet [("a", some 3), ("b", some (-1))] k = none →
          objGet M k = objGet [("a", 5)] k)) :=
  ⟨by decide,
    claim4_increment_request "indexes" 7 TAGS_ID [("a", some 3), ("b", some (-1))]
      (by decide) [("a", 5)] none⟩

theorem getParams_none_iff (tableName : String) (ts : Int) (indexId : String)
    (indexData : IIndexDictionary) :
    getDynamoDbUpdateItemParams tableName ts indexId indexData = none ↔
      validKeys indexData = [] := by
  simp only [getDynamoDbUpdateItemParams]
  by_cases h : (validKeys indexData).length > 0
  · rw [if_pos h]
    simp [List.length_pos.mp h]
  · rw [if_neg h]
    simp [List.length_eq_zero.mp (Nat.eq_zero_of_not_pos h)]

/-- **C7.** `getDynamoDbUpdateItemParams` filters out exactly the
entries whose value is `undefined` and returns `null` iff zero valid
entries remain; in particular the empty dictionary and `{k: undefined}`
both give `null`, and `updateIndexRecord` then returns the skipped marker
(`none`) without submitting any request. -/
theorem claim7_null_on_no_valid_entries (tableName : String) (ts : Int) (indexId : String) :
    (∀ indexData : IIndexDictionary,
      (getDynamoDbUpdateItemParams tableName ts indexId indexData = none ↔
        validKeys indexData = [])) ∧
    (∀ (indexData : IIndexDictionary) (k : String),
      (k ∈ validKeys indexData ↔ (jsGet indexData k).isSome = true)) ∧
    getDynamoDbUpdateItemParams tableName ts indexId [] = none ∧
    (∀ k, getDynamoDbUpdateItemParams tableName ts indexId [(k, none)] = none) ∧
    (∀ (store : Nat → UpdateItemInput → Except AWSError UpdateItemOutput) (k : String),
      updateIndexRecord store tableName ts indexId [] = ([], none) ∧
      updateIndexRecord store tableName ts indexId [(k, none)] = ([], none)) := by
  have hnone := getParams_none_iff tableName ts indexId
  have hempty : validKeys ([] : IIndexDictionary) = [] := rfl
  have hundef : ∀ k, validKeys [(k, none)] = [] := by
    intro k
    simp [validKeys, jsGet, objGet]
  refine ⟨hnone, fun indexData k => mem_validKeys_iff indexData k, ?_, ?_, ?_⟩
  · exact (hnone []).mpr hempty
  · intro k
    exact (hnone [(k, none)]).mpr (hundef k)
  · intro store k
    constructor
    · unfold updateIndexRecord
      rw [(hnone []).mpr hempty]
    · unfold updateIndexRecord
      rw [(hnone [(k, none)]).mpr (hundef k)]

/-- **C10.** Zero (and negative) deltas are kept by the `undefined`
filter: a request built from `{k: 0}` is non-null and its evaluation
against a state where `k` is absent creates the entry `k ↦ 0`; the stored
non-positive counter is removed by the next read-time prune. -/
theorem claim10_zero_delta_persists (tableName : String) (ts : Int) (indexId : String)
    (k : String) (oldMap : CounterMap) (u₀ : Option Int) (hk : objGet oldMap k = none) :
    (∃ req, getDynamoDbUpdateItemParams tableName ts indexId [(k, some 0)] = some req ∧
      ∃ M, evalUpdate req { indexKeys := some oldMap, updatedAt := u₀ }
          = some { indexKeys := some M, updatedAt := some ts } ∧
        objGet M k = some 0) ∧
    (∀ m : CounterMap, objGet m k = some 0 →
      objGet (cleanZeroIndexes defaultIndex { people := m, tags := [] }).1.people k
        = none) := by
  constructor
  · have hne : validKeys [(k, some 0)] ≠ [] := by simp [validKeys, jsGet, objGet]
    obtain ⟨req, hreq, M, hM, hchar⟩ :=
      getParams_eval tableName ts indexId [(k, some 0)] hne oldMap u₀
    refine ⟨req, hreq, M, hM, ?_⟩
    rw [hchar k, if_pos ((mem_validKeys_iff _ _).mpr (by simp [jsGet, objGet]))]
    simp [hk, jsGet, objGet]
  · intro m hm
    rw [cleanZeroIndexes_people_objGet]
    simp [keptVal, hm]

/-- Witness for C10 at key `"x"` against the empty prior map. -/
theorem claim10_zero_delta_persists_witness :
    objGet ([] : CounterMap) "x" = none ∧
    ((∃ req, getDynamoDbUpdateItemParams "indexes" 7 TAGS_ID [("x", some 0)] = some req ∧
      ∃ M, evalUpdate req { indexKeys := some [], updatedAt := none }
          = some { indexKeys := some M, updatedAt := some 7 } ∧
        objGet M "x" = some 0) ∧
    (∀ m : CounterMap, objGet m "x" = some 0 →
      objGet (cleanZeroIndexes defaultIndex { people := m, tags := [] }).1.people "x"
        = none)) :=
  ⟨rfl, claim10_zero_delta_persists "indexes" 7 TAGS_ID "x" [] none rfl⟩

-- Concrete errors, stores and a sample request for the bootstrap claims.

/-- The exact error the bootstrap protocol matches on. -/
def missingPathError : AWSError :=
  { code := "ValidationException",
    message := "The document path provided in the update expression is invalid for update" }

/-- The error DynamoDB raises when a `ConditionExpression` fails (as for
the loser of the concurrent-initializer race). -/
def condFailedError : AWSError :=
  { code := "ConditionalCheckFailedException", message := "The conditional request failed" }

/-- A sample built increment request (for `{red: +1}` against the tags
slot). -/
def sampleUpdateParams : UpdateItemInput :=
  match getDynamoDbUpdateItemParams "indexes" 0 TAGS_ID [("red", some 1)] with
  | some p => p
  | none => ⟨[], [], none, TAGS_ID, none, "indexes", []⟩

/-- A store behaving like the concurrent-initializer race's loser: the
increment fails with the missing-field-path error, then the conditional
initialize write fails because `indexKeys` already exists. -/
def raceLoserStore : Nat → UpdateItemInput → Except AWSError UpdateItemOutput
  | 0, _ => .error missingPathError
  | 1, _ => .error condFailedError
  | _, _ => .ok {}

/-- A store behaving like a plain bootstrap: the increment fails with the
missing-field-path error, the conditional initialize write succeeds, and
the retried increment succeeds. -/
def bootWinnerStore : Nat → UpdateItemInput → Except AWSError UpdateItemOutput
  | 0, _ => .error missingPathError
  | _, _ => .ok {}

/-- A store on which every call succeeds. -/
def okStore : Nat → UpdateItemInput → Except AWSError UpdateItemOutput :=
  fun _ _ => .ok {}

/-- **C1 counterexample.** When the increment submission fails with the
missing-field-path error and the conditional initialize write then fails
(e.g. because the mapping already exists, the concurrent-initializer
loser), `updateAndHandleEmptyMap` does *not* retry the original
submission: only two requests are issued — the original once, then the
conditional write — and the conditional write's failure propagates.  This
refutes "regardless of whether that conditional write succeeds or fails
because the mapping already exists, retries the original increment
submission exactly once more". -/
theorem claim1_no_retry_counterexample :
    (updateAndHandleEmptyMap raceLoserStore sampleUpdateParams).1
        = [sampleUpdateParams, mkSetMapParams sampleUpdateParams] ∧
    (updateAndHandleEmptyMap raceLoserStore sampleUpdateParams).2
        = .error condFailedError ∧
    (updateAndHandleEmptyMap raceLoserStore sampleUpdateParams).1.count sampleUpdateParams
        = 1 :=
  ⟨rfl, rfl, by decide⟩

/-- **C1 (amended).** When the increment submission fails with the
specific missing-field-path error, `updateAndHandleEmptyMap` issues the
conditional write that sets `indexKeys` to the empty mapping guarded by
`attribute_not_exists`; *if that conditional write succeeds* the original
submission is retried exactly once more, but if it fails (including
because the mapping already exists) its error propagates and no retry
occurs. -/
theorem claim1_bootstrap_retry
    (store : Nat → UpdateItemInput → Except AWSError UpdateItemOutput)
    (ddbParams : UpdateItemInput) (e : AWSError)
    (h0 : store 0 ddbParams = .error e)
    (hcode : e.code = "ValidationException")
    (hmsg : e.message =
      "The document path provided in the update expression is invalid for update") :
    (mkSetMapParams ddbParams).ConditionExpression
        = some (CondExpr.attrNotExists NamePh.indexKeysProp) ∧
    (mkSetMapParams ddbParams).UpdateExpression
        = [UpdateClause.setAttr NamePh.indexKeysProp ValuePh.emptyMap] ∧
    (∀ out, store 1 (mkSetMapParams ddbParams) = .ok out →
      updateAndHandleEmptyMap store ddbParams =
        ([ddbParams, mkSetMapParams ddbParams, ddbParams], store 2 ddbParams)) ∧
    (∀ e₂, store 1 (mkSetMapParams ddbParams) = .error e₂ →
      updateAndHandleEmptyMap store ddbParams =
        ([ddbParams, mkSetMapParams ddbParams], .error e₂)) := by
  refine ⟨rfl, rfl, ?_, ?_⟩
  · intro out h1
    unfold updateAndHandleEmptyMap
    rw [h0]
    simp only [hcode, hmsg]
    rw [if_pos (by decide)]
    rw [h1]
  · intro e₂ h1
    unfold updateAndHandleEmptyMap
    rw [h0]
    simp only [hcode, hmsg]
    rw [if_pos (by decide)]
    rw [h1]

/-- Witness for the amended C1: a successful bootstrap — the conditional
write succeeds and the original request is resubmitted once. -/
theorem claim1_bootstrap_retry_witness :
    bootWinnerStore 0 sampleUpdateParams = .error missingPathError ∧
    missingPathError.code = "ValidationException" ∧
    missingPathError.message =
      "The document path provided in the update expression is invalid for update" ∧
    updateAndHandleEmptyMap bootWinnerStore sampleUpdateParams =
      ([sampleUpdateParams, mkSetMapParams sampleUpdateParams, sampleUpdateParams],
        bootWinnerStore 2 sampleUpdateParams) :=
  ⟨rfl, rfl, rfl,
    (claim1_bootstrap_retry bootWinnerStore sampleUpdateParams missingPathError
      rfl rfl rfl).2.2.1 {} rfl⟩

/-- **C8.** Any failure of the increment submission that does not match
the specific classification (code `ValidationException` *and* the exact
invalid-document-path message) causes no further storage operation — no
initialize write, no retry — and the same error is rethrown. -/
theorem claim8_other_errors_propagate
    (store : Nat → UpdateItemInput → Except AWSError UpdateItemOutput)
    (ddbParams : UpdateItemInput) (e : AWSError)
    (h0 : store 0 ddbParams = .error e)
    (hnot : (e.code == "ValidationException" && e.message ==
      "The document path provided in the update expression is invalid for update")
        = false) :
    updateAndHandleEmptyMap store ddbParams = ([ddbParams], .error e) := by
  unfold updateAndHandleEmptyMap
  rw [h0]
  simp only [hnot]
  rfl

/-- An unrelated storage failure. -/
def throughputError : AWSError :=
  ⟨"ProvisionedThroughputExceededException", "Throughput exceeds the current capacity"⟩

/-- A store failing with an unrelated error on the first call. -/
def otherErrorStore : Nat → UpdateItemInput → Except AWSError UpdateItemOutput
  | 0, _ => .error throughputError
  | _, _ => .ok {}

/-- Witness for C8: a throughput error is surfaced unchanged after a
single submission. -/
theorem claim8_other_errors_propagate_witness :
    otherErrorStore 0 sampleUpdateParams = .error throughputError ∧
    ((throughputError.code == "ValidationException" && throughputError.message ==
      "The document path provided in the update expression is invalid for update")
      = false) ∧
    updateAndHandleEmptyMap otherErrorStore sampleUpdateParams =
      ([sampleUpdateParams], .error throughputError) :=
  ⟨rfl, by decide,
    claim8_other_errors_propagate otherErrorStore sampleUpdateParams throughputError
      rfl (by decide)⟩

/-- **C6 counterexample.** A write request whose tags delta mapping is
*omitted* does not yield a skipped-style success for that slot: the
`Object.keys(undefined)` `TypeError` is caught and the whole request ends
in the failure envelope. -/
theorem claim6_omitted_slot_counterexample :
    putItem okStore okStore "indexes" 0
      { indexUpdate := { tags := none, people := some [("x", some 1)] } }
      = .error JsError.typeError :=
  rfl

/-- **C6 (amended).** A slot whose delta mapping is *present* but has
zero valid keys yields the skipped marker inside a success envelope (and
no request is submitted for it); but a slot whose delta mapping is
*omitted* makes `Object.keys(undefined)` throw a `TypeError`, so the
whole write ends in the failure envelope instead. -/
theorem claim6_zero_valid_keys_skipped
    (storeT storeP : Nat → UpdateItemInput → Except AWSError UpdateItemOutput)
    (tableName : String) (ts : Int) (dt dp : IIndexDictionary)
    (ht : validKeys dt = []) (hp : validKeys dp = []) :
    updateIndexRecordRun storeT tableName ts TAGS_ID (some dt) = ([], .ok none) ∧
    putItem storeT storeP tableName ts
        { indexUpdate := { tags := some dt, people := some dp } } = .ok (none, none) ∧
    (∀ dOther : Option IIndexDictionary, putItem storeT storeP tableName ts
        { indexUpdate := { tags := none, people := dOther } }
      = .error JsError.typeError) := by
  have hT : getDynamoDbUpdateItemParams tableName ts TAGS_ID dt = none :=
    (getParams_none_iff tableName ts TAGS_ID dt).mpr ht
  have hP : getDynamoDbUpdateItemParams tableName ts PEOPLE_ID dp = none :=
    (getParams_none_iff tableName ts PEOPLE_ID dp).mpr hp
  have hrunT : updateIndexRecordRun storeT tableName ts TAGS_ID (some dt)
      = ([], .ok none) := by
    simp only [updateIndexRecordRun, updateIndexRecord, hT]
  have hrunP : updateIndexRecordRun storeP tableName ts PEOPLE_ID (some dp)
      = ([], .ok none) := by
    simp only [updateIndexRecordRun, updateIndexRecord, hP]
  refine ⟨hrunT, ?_, ?_⟩
  · unfold putItem
    rw [hrunT, hrunP]
  · intro dOther
    rfl

/-- Witness for the amended C6: an empty tags dictionary and a
`{k: undefined}` people dictionary both have zero valid keys; the write
succeeds with both slots skipped, while an omitted tags mapping fails the
whole request. -/
theorem claim6_zero_valid_keys_skipped_witness :
    validKeys ([] : IIndexDictionary) = [] ∧
    validKeys [("k", none)] = [] ∧
    (updateIndexRecordRun okStore "indexes" 0 TAGS_ID (some []) = ([], .ok none) ∧
      putItem okStore okStore "indexes" 0
          { indexUpdate := { tags := some [], people := some [("k", none)] } }
        = .ok (none, none) ∧
      (∀ dOther : Option IIndexDictionary, putItem okStore okStore "indexes" 0
          { indexUpdate := { tags := none, people := dOther } }
        = .error JsError.typeError)) :=
  ⟨rfl, by decide,
    claim6_zero_valid_keys_skipped okStore okStore "indexes" 0 [] [("k", none)]
      rfl (by decide)⟩
